import Mathlib

/-!
Verification of openconnect-gp-okta against its specification.

The development shallowly embeds the parts of the program the claims
touch: the base64 transport re-encoding used by the webauthn verifier,
the factor-priority map and the stable descending factor sort, the
factor-negotiation loop of okta_auth together with its network-request
trace, the SAML flow controller sequencing, and the signal-forwarding
process supervisor popen_forward_sigterm modelled as a small step
machine with a single asynchronous signal delivery.

Network and terminal interaction are modelled as oracles: each HTTP
POST or GET consumes the next scripted response, and user prompts are
supplied as environment fields.  Bytes are Nat values below 256.
-/

/-! ## Base64 encodings (base64.b64encode, fido2 websafe_encode / websafe_decode)

The webauthn verifier re-encodes each binary assertion field with
  base64.b64encode(websafe_decode(websafe_encode(obj)))
where websafe_encode produces the canonical URL-safe unpadded encoding
and b64encode the standard padded one.  Bytes are Nat values below 256,
characters are Lean Char.
-/

def b64chars : List Char :=
  "ABCDEFGHIJKLMNOPQRSTUVWXYZabcdefghijklmnopqrstuvwxyz0123456789+/".toList

def b64urlChars : List Char :=
  "ABCDEFGHIJKLMNOPQRSTUVWXYZabcdefghijklmnopqrstuvwxyz0123456789-_".toList

/-- Character of a six-bit group, indexing into the given alphabet. -/
def encChar (alpha : List Char) (n : Nat) : Char := alpha.getD n 'A'

/-- Inverse lookup of a character in the given alphabet. -/
def decChar (alpha : List Char) (c : Char) : Option Nat :=
  alpha.findIdx? (fun a => a == c)

/-- Bytes to six-bit groups, processing three bytes into four groups,
with the standard shortened tail for one or two trailing bytes. -/
def toSextets : List Nat → List Nat
  | b1 :: b2 :: b3 :: rest =>
      b1 / 4 :: (b1 % 4 * 16 + b2 / 16) :: (b2 % 16 * 4 + b3 / 64) :: b3 % 64 :: toSextets rest
  | [b1, b2] => [b1 / 4, b1 % 4 * 16 + b2 / 16, b2 % 16 * 4]
  | [b1] => [b1 / 4, b1 % 4 * 16]
  | [] => []

/-- Six-bit groups back to bytes; inverse of toSextets on valid input. -/
def fromSextets : List Nat → List Nat
  | s1 :: s2 :: s3 :: s4 :: rest =>
      (s1 * 4 + s2 / 16) :: (s2 % 16 * 16 + s3 / 4) :: (s3 % 4 * 64 + s4) :: fromSextets rest
  | [s1, s2, s3] => [s1 * 4 + s2 / 16, s2 % 16 * 16 + s3 / 4]
  | [s1, s2] => [s1 * 4 + s2 / 16]
  | _ => []

/-- Padding characters appended by standard base64 for a byte count. -/
def b64pad (n : Nat) : List Char :=
  if n % 3 = 1 then ['=', '='] else if n % 3 = 2 then ['='] else []

/-- base64.b64encode: standard alphabet, padded. -/
def b64encode (bs : List Nat) : List Char :=
  (toSextets bs).map (encChar b64chars) ++ b64pad bs.length

/-- base64.b64decode restricted to well-padded input: strip padding,
decode each character, reassemble bytes. -/
def b64decode (cs : List Char) : Option (List Nat) :=
  ((cs.takeWhile (fun c => c != '=')).mapM (decChar b64chars)).map fromSextets

/-- fido2.utils.websafe_encode: URL-safe alphabet, no padding. -/
def websafe_encode (bs : List Nat) : List Char :=
  (toSextets bs).map (encChar b64urlChars)

/-- fido2.utils.websafe_decode: re-pad and decode the URL-safe form. -/
def websafe_decode (cs : List Char) : Option (List Nat) :=
  (cs.mapM (decChar b64urlChars)).map fromSextets

/-- The helper b64 inside OktaWebauthn.okta_verify:
base64.b64encode(websafe_decode(websafe_encode(obj))). -/
def okta_b64 (bs : List Nat) : List Char :=
  b64encode ((websafe_decode (websafe_encode bs)).getD [])

theorem dec_enc_std : ∀ n, n < 64 → decChar b64chars (encChar b64chars n) = some n := by
  decide

theorem dec_enc_url : ∀ n, n < 64 → decChar b64urlChars (encChar b64urlChars n) = some n := by
  decide

theorem toSextets_lt : ∀ bs : List Nat, (∀ b ∈ bs, b < 256) → ∀ s ∈ toSextets bs, s < 64
  | [], _ => by simp [toSextets]
  | [b1], h => by
      have h1 := h b1 (by simp)
      simp only [toSextets, List.mem_cons, List.not_mem_nil, or_false]
      rintro s (rfl | rfl) <;> omega
  | [b1, b2], h => by
      have h1 := h b1 (by simp)
      have h2 := h b2 (by simp)
      simp only [toSextets, List.mem_cons, List.not_mem_nil, or_false]
      rintro s (rfl | rfl | rfl) <;> omega
  | b1 :: b2 :: b3 :: rest, h => by
      have h1 := h b1 (by simp)
      have h2 := h b2 (by simp)
      have h3 := h b3 (by simp)
      have ih := toSextets_lt rest (fun b hb => h b (by simp [hb]))
      simp only [toSextets, List.mem_cons] at *
      rintro s (rfl | rfl | rfl | rfl | hs)
      · omega
      · omega
      · omega
      · omega
      · exact ih s hs

theorem fromSextets_toSextets :
    ∀ bs : List Nat, (∀ b ∈ bs, b < 256) → fromSextets (toSextets bs) = bs
  | [], _ => rfl
  | [b1], h => by
      have h1 := h b1 (by simp)
      simp only [toSextets, fromSextets, List.cons.injEq, and_true]
      omega
  | [b1, b2], h => by
      have h1 := h b1 (by simp)
      have h2 := h b2 (by simp)
      simp only [toSextets, fromSextets, List.cons.injEq, and_true]
      omega
  | b1 :: b2 :: b3 :: rest, h => by
      have h1 := h b1 (by simp)
      have h2 := h b2 (by simp)
      have h3 := h b3 (by simp)
      have ih := fromSextets_toSextets rest (fun b hb => h b (by simp [hb]))
      simp only [toSextets, fromSextets, List.cons.injEq]
      refine ⟨by omega, by omega, by omega, ih⟩

theorem mapM_dec_enc (alpha : List Char)
    (hde : ∀ n, n < 64 → decChar alpha (encChar alpha n) = some n) :
    ∀ l : List Nat, (∀ s ∈ l, s < 64) →
      (l.map (encChar alpha)).mapM (decChar alpha) = some l := by
  intro l
  induction l with
  | nil => intro _; rfl
  | cons s rest ih =>
      intro h
      have hs := h s (by simp)
      have hrest := ih (fun x hx => h x (by simp [hx]))
      simp only [List.map_cons, List.mapM_cons, hde s hs, hrest, Option.pure_def,
        Option.bind_eq_bind, Option.some_bind]

theorem encChar_ne_pad (alpha : List Char) (hne : ∀ c ∈ alpha, (c != '=') = true) :
    ∀ n, (encChar alpha n != '=') = true := by
  intro n
  by_cases hn : n < alpha.length
  · have hmem : alpha.getD n 'A' ∈ alpha := by
      rw [List.getD_eq_getElem _ _ hn]
      exact List.getElem_mem hn
    exact hne _ hmem
  · have : encChar alpha n = 'A' := by
      unfold encChar
      rw [List.getD_eq_default]
      omega
    rw [this]
    decide

theorem b64chars_ne_pad : ∀ c ∈ b64chars, (c != '=') = true := by decide

theorem b64urlChars_ne_pad : ∀ c ∈ b64urlChars, (c != '=') = true := by decide

theorem takeWhile_pad (n : Nat) : (b64pad n).takeWhile (fun c => c != '=') = [] := by
  unfold b64pad
  split <;> try split
  all_goals rfl

theorem takeWhile_append_pad :
    ∀ l1 : List Char, (∀ a ∈ l1, (a != '=') = true) →
      ∀ n, ((l1 ++ b64pad n).takeWhile (fun c => c != '=')) = l1 := by
  intro l1
  induction l1 with
  | nil => intro _ n; simpa using takeWhile_pad n
  | cons c rest ih =>
      intro h n
      have hc := h c (by simp)
      simp only [List.cons_append, List.takeWhile_cons, hc, if_true]
      rw [ih (fun a ha => h a (by simp [ha])) n]

theorem b64_roundtrip (bs : List Nat) (h : ∀ b ∈ bs, b < 256) :
    b64decode (b64encode bs) = some bs := by
  unfold b64encode b64decode
  rw [takeWhile_append_pad _
    (fun a ha => by
      obtain ⟨s, _, rfl⟩ := List.mem_map.mp ha
      exact encChar_ne_pad b64chars b64chars_ne_pad s)]
  rw [mapM_dec_enc b64chars dec_enc_std _ (toSextets_lt bs h)]
  simp [fromSextets_toSextets bs h]

theorem websafe_roundtrip (bs : List Nat) (h : ∀ b ∈ bs, b < 256) :
    websafe_decode (websafe_encode bs) = some bs := by
  unfold websafe_encode websafe_decode
  rw [mapM_dec_enc b64urlChars dec_enc_url _ (toSextets_lt bs h)]
  simp [fromSextets_toSextets bs h]

/-! ## Factor data model, priority map and the stable descending sort

okta_auth sorts the offered factors with
  sorted(r[_embedded][factors], key=priority, reverse=True)
where priority(factor) = factor_priorities.get(factor[factorType], 0).
Python sorted is a stable sort; with reverse=True it is the stable
descending sort, which coincides with List.insertionSort under the
relation fun a b => priority b <= priority a.  The factor_priorities
dict built in main is modelled as an association list with
last-binding-wins lookup, matching Python dict construction.
-/

structure MfaFactor where
  factorType : String
  provider : String
  vendorName : String
  verifyUrl : String
deriving DecidableEq, Repr

/-- Lookup in a dict built from a pair list: the last binding wins. -/
def dict_lookup (l : List (String × Int)) (k : String) : Option Int :=
  l.foldl (fun acc p => if p.1 = k then some p.2 else acc) none

/-- dict.get(k, d): lookup with a default. -/
def dict_get (l : List (String × Int)) (k : String) (d : Int) : Int :=
  (dict_lookup l k).getD d

/-- The priority closure inside okta_auth: factor_priorities.get(factorType, 0). -/
def factor_priority (prios : List (String × Int)) (f : MfaFactor) : Int :=
  dict_get prios f.factorType 0

/-- The factor_priorities dict literal built in main:
token-software-totp maps to 0 without a TOTP key and 2 with one,
push maps to 1, and the user-supplied overrides are merged last. -/
def main_factor_priorities (totp_key : Option String)
    (overrides : List (String × Int)) : List (String × Int) :=
  [("token:software:totp", if totp_key = none then 0 else 2), ("push", 1)] ++ overrides

/-- Python sorted(key=priority, reverse=True): the stable descending
sort by priority, realised as insertion sort under priority-ge. -/
def sortedFactors (prios : List (String × Int)) (fs : List MfaFactor) : List MfaFactor :=
  fs.insertionSort (fun a b => factor_priority prios b ≤ factor_priority prios a)

theorem dict_lookup_foldl (k : String) :
    ∀ (l : List (String × Int)) (a : Option Int),
      l.foldl (fun acc p => if p.1 = k then some p.2 else acc) a =
        match dict_lookup l k with | some v => some v | none => a := by
  intro l
  induction l with
  | nil => intro a; rfl
  | cons p rest ih =>
      intro a
      show List.foldl _ (if p.1 = k then some p.2 else a) rest = _
      rw [ih]
      have hrest := ih (if p.1 = k then some p.2 else none)
      show _ = match List.foldl _ (if p.1 = k then some p.2 else none) rest with
        | some v => some v | none => a
      rw [hrest]
      by_cases hp : p.1 = k
      · simp only [hp, if_pos rfl]
        cases dict_lookup rest k <;> rfl
      · simp only [if_neg hp]
        cases dict_lookup rest k <;> rfl

theorem dict_lookup_append (l1 l2 : List (String × Int)) (k : String) :
    dict_lookup (l1 ++ l2) k =
      match dict_lookup l2 k with | some v => some v | none => dict_lookup l1 k := by
  unfold dict_lookup
  rw [List.foldl_append]
  exact dict_lookup_foldl k l2 _

/-- Stability of orderedInsert under the priority-ge relation: filtering
any priority class commutes with the insertion. -/
theorem filter_orderedInsert (p : MfaFactor → Int) (k : Int) (a : MfaFactor) :
    ∀ l : List MfaFactor,
      (l.orderedInsert (fun x y => p y ≤ p x) a).filter (fun x => p x = k) =
        if p a = k then a :: l.filter (fun x => p x = k)
        else l.filter (fun x => p x = k) := by
  intro l
  induction l with
  | nil =>
      simp only [List.orderedInsert, List.filter]
      by_cases hk : p a = k
      · simp [hk]
      · simp [hk]
  | cons b rest ih =>
      by_cases hr : p b ≤ p a
      · simp only [List.orderedInsert, if_pos hr, List.filter]
        by_cases hk : p a = k
        · simp [hk]
        · simp [hk]
      · simp only [List.orderedInsert, if_neg hr, List.filter_cons, ih]
        by_cases hk : p a = k
        · have hbk : ¬ (p b = k) := by omega
          simp [hk, hbk]
        · simp only [if_neg hk]

/-! ## okta_auth: the factor negotiator

The network is an oracle: each post_json call consumes the next
response of a script list and records an event.  The trace starts
after the initial authn response r0 (the first element of the script);
every verification request records the URL, the stateToken field of
its JSON payload, and the optional passCode.  The webauthn assertion
fields travel opaquely and are not recorded.  User prompts, the locally
computed TOTP code, library availability (HAS_FIDO2) and the
get_device outcome are supplied by the environment.
-/

structure OktaResponse where
  status : String
  stateToken : String
  factorResult : String
  sessionToken : String
  factors : List MfaFactor
  nextHref : String
deriving DecidableEq, Repr

structure OktaRequest where
  url : String
  stateToken : String
  passCode : Option String
deriving DecidableEq, Repr

inductive OktaEvent where
  | req (q : OktaRequest)
  | resp (r : OktaResponse)
deriving DecidableEq, Repr

inductive OktaErr where
  | scriptExhausted
  | assertFail
  | lockedOut
  | noSupportedFactors
deriving DecidableEq, Repr

structure AuthEnv where
  domain : String
  totpKey : Option String
  totpNow : String
  promptCode : String
  hasFido2 : Bool
  hasDevice : Bool
  prios : List (String × Int)
deriving Repr

/-- re.match(token(?::|$), factorType): the type is token or starts
with token followed by a colon (the prefix test is spelled on the
character list so that it evaluates). -/
def isTokenFactorType (ft : String) : Bool :=
  ft == "token" || ft.toList.take ("token:".length) == "token:".toList

/-- WEBAUTHN_URL_TEMPLATE.format(domain). -/
def webauthnUrl (domain : String) : String :=
  "https://" ++ domain ++ "/api/v1/authn/factors/webauthn/verify"

/-- A push poll response that keeps the loop going: status
MFA_CHALLENGE with factorResult WAITING. -/
def pushCont (r : OktaResponse) : Bool :=
  r.status == "MFA_CHALLENGE" && r.factorResult == "WAITING"

/-- The push sub-protocol loop: post the stateToken of the most recent
response, stop when the status is no longer MFA_CHALLENGE, abort when
a challenge response does not report WAITING. -/
def push_verify (url tok : String) :
    List OktaResponse → List OktaEvent × Except OktaErr (OktaResponse × List OktaResponse)
  | [] => ([.req ⟨url, tok, none⟩], .error .scriptExhausted)
  | r1 :: rest =>
      if r1.status ≠ "MFA_CHALLENGE" then
        ([.req ⟨url, tok, none⟩, .resp r1], .ok (r1, rest))
      else if r1.factorResult ≠ "WAITING" then
        ([.req ⟨url, tok, none⟩, .resp r1], .error .assertFail)
      else
        let out := push_verify url r1.stateToken rest
        (.req ⟨url, tok, none⟩ :: .resp r1 :: out.1, out.2)

/-- The sms sub-protocol: trigger the challenge, check MFA_CHALLENGE,
submit the prompted code with the stateToken of the challenge response. -/
def sms_verify (url tok code : String) :
    List OktaResponse → List OktaEvent × Except OktaErr (OktaResponse × List OktaResponse)
  | [] => ([.req ⟨url, tok, none⟩], .error .scriptExhausted)
  | r1 :: rest =>
      if r1.status ≠ "MFA_CHALLENGE" then
        ([.req ⟨url, tok, none⟩, .resp r1], .error .assertFail)
      else
        match rest with
        | [] => ([.req ⟨url, tok, none⟩, .resp r1, .req ⟨url, r1.stateToken, some code⟩],
                 .error .scriptExhausted)
        | r2 :: rest2 =>
            ([.req ⟨url, tok, none⟩, .resp r1, .req ⟨url, r1.stateToken, some code⟩, .resp r2],
             .ok (r2, rest2))

/-- The token-family sub-protocol: a single verification post carrying
the code. -/
def token_verify (url tok code : String) :
    List OktaResponse → List OktaEvent × Except OktaErr (OktaResponse × List OktaResponse)
  | [] => ([.req ⟨url, tok, some code⟩], .error .scriptExhausted)
  | r1 :: rest => ([.req ⟨url, tok, some code⟩, .resp r1], .ok (r1, rest))

/-- OktaWebauthn.okta_verify: request the challenge at the generic
webauthn URL, check MFA_CHALLENGE, then submit the assertion to the
next link carrying the stateToken of the challenge response. -/
def webauthn_verify (domain tok : String) :
    List OktaResponse → List OktaEvent × Except OktaErr (OktaResponse × List OktaResponse)
  | [] => ([.req ⟨webauthnUrl domain, tok, none⟩], .error .scriptExhausted)
  | r1 :: rest =>
      if r1.status ≠ "MFA_CHALLENGE" then
        ([.req ⟨webauthnUrl domain, tok, none⟩, .resp r1], .error .assertFail)
      else
        match rest with
        | [] => ([.req ⟨webauthnUrl domain, tok, none⟩, .resp r1,
                  .req ⟨r1.nextHref, r1.stateToken, none⟩], .error .scriptExhausted)
        | r2 :: rest2 =>
            ([.req ⟨webauthnUrl domain, tok, none⟩, .resp r1,
              .req ⟨r1.nextHref, r1.stateToken, none⟩, .resp r2], .ok (r2, rest2))

/-- The for loop over the sorted factors: the first factor whose type
is recognised (and, for webauthn, whose device is available) runs its
sub-protocol and breaks; a webauthn factor without a device sets
ignore_webauthn and continues; unrecognised types are skipped; an
exhausted list raises the no-supported-factors error. -/
def factor_loop (env : AuthEnv) (tok : String) (ignoreW : Bool) :
    List MfaFactor → List OktaResponse →
      List OktaEvent × Except OktaErr (OktaResponse × List OktaResponse)
  | [], _ => ([], .error .noSupportedFactors)
  | f :: fs, script =>
      if f.factorType = "push" then
        push_verify f.verifyUrl tok script
      else if f.factorType = "sms" then
        sms_verify f.verifyUrl tok env.promptCode script
      else if f.factorType = "webauthn" then
        if ignoreW then factor_loop env tok ignoreW fs script
        else if env.hasDevice then webauthn_verify env.domain tok script
        else factor_loop env tok true fs script
      else if isTokenFactorType f.factorType then
        token_verify f.verifyUrl tok
          (if f.factorType = "token:software:totp" ∧ env.totpKey ≠ none
           then env.totpNow else env.promptCode) script
      else factor_loop env tok ignoreW fs script

/-- The checks after the factor loop: LOCKED_OUT raises, any status
other than SUCCESS fails the assert, SUCCESS yields the sessionToken. -/
def okta_finish :
    List OktaEvent × Except OktaErr (OktaResponse × List OktaResponse) →
      List OktaEvent × Except OktaErr String
  | (es, .error e) => (es, .error e)
  | (es, .ok (r, _)) =>
      if r.status = "LOCKED_OUT" then (es, .error .lockedOut)
      else if r.status = "SUCCESS" then (es, .ok r.sessionToken)
      else (es, .error .assertFail)

/-- okta_auth: the initial authn response is the script head; on
MFA_REQUIRED the sorted factors are negotiated with ignore_webauthn
initialised to not HAS_FIDO2; then the terminal checks run. -/
def okta_auth (env : AuthEnv) : List OktaResponse → List OktaEvent × Except OktaErr String
  | [] => ([], .error .scriptExhausted)
  | r0 :: rest =>
      okta_finish
        (if r0.status = "MFA_REQUIRED" then
          factor_loop env r0.stateToken (!env.hasFido2) (sortedFactors env.prios r0.factors) rest
        else ([], .ok (r0, rest)))

/-! ## SAML flow controller (prelogin, okta_saml, complete_saml)

The Form Extractor and the XML/base64 unwrapping of the prelogin body
are collaborators: the flow receives the extracted form directly.  The
modelled trace lists every network request issued after the prelogin
POST itself.  urlencode is modelled as a plain key=value join; escaping
belongs to the urllib collaborator and no claim depends on it.
-/

/-- urllib.parse.urlencode modelled as a plain join of key=value pairs. -/
def urlencode (fields : List (String × String)) : String :=
  String.intercalate "&" (fields.map (fun p => p.1 ++ "=" ++ p.2))

/-- urllib.parse.urlparse(url).netloc for an https URL. -/
def netloc (url : String) : String :=
  (url.drop 8).takeWhile (fun c => c != '/')

/-- The tail of prelogin after the form extraction: require the
SAMLRequest field (assert) and build the redirect URL. -/
def prelogin_extract (action : String) (fields : List (String × String)) :
    Except OktaErr String :=
  if (fields.map Prod.fst).contains "SAMLRequest" then
    .ok (action ++ "?" ++ urlencode fields)
  else .error .assertFail

inductive FlowReq where
  | get (url : String)
  | post (url : String)
deriving DecidableEq, Repr

/-- Requests recorded by the negotiator mapped into flow requests
(post_json always posts). -/
def eventReqs (es : List OktaEvent) : List FlowReq :=
  es.filterMap (fun e => match e with | .req q => some (.post q.url) | .resp _ => none)

structure SamlEnv where
  preloginAction : String
  preloginFields : List (String × String)
  authEnv : AuthEnv
  authScript : List OktaResponse
  redirectAction : String
  redirectFields : List (String × String)
  samlUsername : String
  preloginCookie : String
deriving Repr

/-- The controller sequence after the prelogin POST: prelogin form
check, the DT-cookie GET, okta_auth, the sessionCookieRedirect GET
whose response form must contain SAMLResponse, and the final SAML
submission POST whose response headers carry the credential pair. -/
def saml_flow (env : SamlEnv) : List FlowReq × Except OktaErr (String × String) :=
  match prelogin_extract env.preloginAction env.preloginFields with
  | .error e => ([], .error e)
  | .ok samlReqUrl =>
      let domain := netloc samlReqUrl
      match okta_auth { env.authEnv with domain := domain } env.authScript with
      | (es, .error e) => (.get samlReqUrl :: eventReqs es, .error e)
      | (es, .ok token) =>
          let redirectUrl := "https://" ++ domain ++ "/login/sessionCookieRedirect?token="
            ++ token ++ "&redirectUrl=" ++ samlReqUrl
          if (env.redirectFields.map Prod.fst).contains "SAMLResponse" then
            (.get samlReqUrl :: eventReqs es ++ [.get redirectUrl, .post env.redirectAction],
             .ok (env.samlUsername, env.preloginCookie))
          else
            (.get samlReqUrl :: eventReqs es ++ [.get redirectUrl], .error .assertFail)

/-! ## popen_forward_sigterm: the process supervisor

The supervisor is the fixed sequence of primitive actions performed by
the nested context managers, in source order:
  block SIGTERM (saving the original mask)  — outer signal_mask enter,
  spawn the child whose preexec resets its mask to the original,
  install the forwarding handler            — signal_handler enter,
  set the mask back to the original         — inner signal_mask enter,
  write the secret, close stdin,
  waitid on the child with WNOWAIT,
  set the mask back to blocked              — inner signal_mask exit,
  restore the original handler              — signal_handler exit,
  reap the child                            — Popen exit,
  restore the original mask                 — outer signal_mask exit.
A single asynchronous SIGTERM is delivered between two of these
actions (index i of runSup).  Delivery while the signal is blocked
leaves it pending; a mask change that unblocks it invokes the current
handler; the forwarding handler sends one SIGTERM to the child; with
the original disposition in place the supervisor itself dies (the run
does not complete).  The child is the VPN client: it exits only when
signalled, so waitid returns only once the child was torn down.
-/

inductive SigHandler where
  | orig
  | forward
deriving DecidableEq, Repr

structure SupState where
  origMask : Bool
  mask : Bool
  pending : Bool
  handler : SigHandler
  childAlive : Bool
  childMask : Option Bool
  childSigs : Nat
  reaped : Bool
deriving DecidableEq, Repr

inductive SupStep where
  | blockTerm
  | spawnChild
  | installForward
  | unblockInner
  | writeSecret
  | closeStdin
  | waitChild
  | reblockInner
  | restoreHandler
  | reapChild
  | restoreOuter
deriving DecidableEq, Repr

/-- Delivery of SIGTERM to the supervisor: pend while blocked,
otherwise run the current handler; the forwarding handler terminates
the child, the original disposition ends the supervisor (no result). -/
def deliverTerm (s : SupState) : Option SupState :=
  if s.mask then some { s with pending := true }
  else match s.handler with
    | .forward => some { s with
        childSigs := s.childSigs + (if s.childAlive then 1 else 0),
        childAlive := false }
    | .orig => none

/-- pthread_sigmask(SIG_SETMASK, ...): a pending signal is delivered
as soon as the new mask unblocks it. -/
def setMask (s : SupState) (b : Bool) : Option SupState :=
  if b = false ∧ s.pending then deliverTerm { s with mask := b, pending := false }
  else some { s with mask := b }

def execStep (s : SupState) : SupStep → Option SupState
  | .blockTerm => setMask s true
  | .spawnChild => some { s with childAlive := true, childMask := some s.origMask }
  | .installForward => some { s with handler := .forward }
  | .unblockInner => setMask s s.origMask
  | .writeSecret => some s
  | .closeStdin => some s
  | .waitChild => if s.childAlive then none else some s
  | .reblockInner => setMask s true
  | .restoreHandler => some { s with handler := .orig }
  | .reapChild => some { s with reaped := true }
  | .restoreOuter => setMask s s.origMask

def execSteps : List SupStep → SupState → Option SupState
  | [], s => some s
  | st :: rest, s => (execStep s st).bind (execSteps rest)

def supProgram : List SupStep :=
  [.blockTerm, .spawnChild, .installForward, .unblockInner, .writeSecret,
   .closeStdin, .waitChild, .reblockInner, .restoreHandler, .reapChild, .restoreOuter]

def supInit (m0 : Bool) : SupState :=
  { origMask := m0, mask := m0, pending := false, handler := .orig,
    childAlive := false, childMask := none, childSigs := 0, reaped := false }

/-- A full run of popen_forward_sigterm with the single SIGTERM
delivered after the first i actions. -/
def runSup (m0 : Bool) (i : Nat) : Option SupState :=
  (execSteps (supProgram.take i) (supInit m0)).bind
    (fun s => (deliverTerm s).bind (execSteps (supProgram.drop i)))

theorem execSteps_append (l1 l2 : List SupStep) (s : SupState) :
    execSteps (l1 ++ l2) s = (execSteps l1 s).bind (execSteps l2) := by
  induction l1 generalizing s with
  | nil => rfl
  | cons st rest ih =>
      simp only [List.cons_append, execSteps]
      cases hst : execStep s st with
      | none => rfl
      | some s2 => exact ih s2

theorem execSteps_firstSeven (m0 : Bool) :
    execSteps (supProgram.take 7) (supInit m0) = none := by
  cases m0 <;> rfl

theorem runSup_late (m0 : Bool) (i : Nat) (hi : 7 ≤ i) : runSup m0 i = none := by
  unfold runSup
  have hsplit : supProgram.take i = supProgram.take 7 ++ (supProgram.drop 7).take (i - 7) := by
    have h7 : i = 7 + (i - 7) := by omega
    rw [h7, List.take_add, ← h7]
  rw [hsplit, execSteps_append, execSteps_firstSeven]
  rfl

/-! ## State-token threading -/

/-- Every recorded request carries the stateToken of the most recent
response (the running token starts at the initial authn response and
is updated by every consumed response). -/
def tokenThreaded : String → List OktaEvent → Prop
  | _, [] => True
  | t, .req q :: es => q.stateToken = t ∧ tokenThreaded t es
  | _, .resp r :: es => tokenThreaded r.stateToken es

def isReqEvent : OktaEvent → Bool
  | .req _ => true
  | .resp _ => false

theorem okta_finish_fst
    (x : List OktaEvent × Except OktaErr (OktaResponse × List OktaResponse)) :
    (okta_finish x).1 = x.1 := by
  obtain ⟨es, out⟩ := x
  cases out with
  | error e => rfl
  | ok p =>
      obtain ⟨r, s⟩ := p
      simp only [okta_finish]
      split
      · rfl
      · split <;> rfl

theorem push_verify_threaded (url : String) :
    ∀ (script : List OktaResponse) (tok : String),
      tokenThreaded tok (push_verify url tok script).1
  | [], tok => ⟨rfl, trivial⟩
  | r1 :: rest, tok => by
      simp only [push_verify]
      by_cases h1 : r1.status ≠ "MFA_CHALLENGE"
      · rw [if_pos h1]
        exact ⟨rfl, trivial⟩
      · rw [if_neg h1]
        by_cases h2 : r1.factorResult ≠ "WAITING"
        · rw [if_pos h2]
          exact ⟨rfl, trivial⟩
        · rw [if_neg h2]
          exact ⟨rfl, push_verify_threaded url rest r1.stateToken⟩

theorem sms_verify_threaded (url code : String) :
    ∀ (script : List OktaResponse) (tok : String),
      tokenThreaded tok (sms_verify url tok code script).1
  | [], tok => ⟨rfl, trivial⟩
  | r1 :: rest, tok => by
      simp only [sms_verify]
      by_cases h1 : r1.status ≠ "MFA_CHALLENGE"
      · rw [if_pos h1]
        exact ⟨rfl, trivial⟩
      · rw [if_neg h1]
        cases rest with
        | nil => exact ⟨rfl, rfl, trivial⟩
        | cons r2 rest2 => exact ⟨rfl, rfl, trivial⟩

theorem token_verify_threaded (url code : String) :
    ∀ (script : List OktaResponse) (tok : String),
      tokenThreaded tok (token_verify url tok code script).1
  | [], _ => ⟨rfl, trivial⟩
  | _ :: _, _ => ⟨rfl, trivial⟩

theorem webauthn_verify_threaded (domain : String) :
    ∀ (script : List OktaResponse) (tok : String),
      tokenThreaded tok (webauthn_verify domain tok script).1
  | [], tok => ⟨rfl, trivial⟩
  | r1 :: rest, tok => by
      simp only [webauthn_verify]
      by_cases h1 : r1.status ≠ "MFA_CHALLENGE"
      · rw [if_pos h1]
        exact ⟨rfl, trivial⟩
      · rw [if_neg h1]
        cases rest with
        | nil => exact ⟨rfl, rfl, trivial⟩
        | cons r2 rest2 => exact ⟨rfl, rfl, trivial⟩

theorem factor_loop_threaded (env : AuthEnv) :
    ∀ (fs : List MfaFactor) (tok : String) (ignoreW : Bool) (script : List OktaResponse),
      tokenThreaded tok (factor_loop env tok ignoreW fs script).1
  | [], _, _, _ => trivial
  | f :: fs, tok, iw, script => by
      simp only [factor_loop]
      split
      · exact push_verify_threaded f.verifyUrl script tok
      · split
        · exact sms_verify_threaded f.verifyUrl env.promptCode script tok
        · split
          · split
            · exact factor_loop_threaded env fs tok iw script
            · split
              · exact webauthn_verify_threaded env.domain script tok
              · exact factor_loop_threaded env fs tok true script
          · split
            · exact token_verify_threaded f.verifyUrl _ script tok
            · exact factor_loop_threaded env fs tok iw script

/-! ## Concrete fixtures -/

def totpFactor : MfaFactor :=
  ⟨"token:software:totp", "OKTA", "OKTA", "https://corp.okta.example/factors/totp1/verify"⟩

def pushFactor : MfaFactor :=
  ⟨"push", "OKTA", "OKTA", "https://corp.okta.example/factors/push1/verify"⟩

def smsFactor : MfaFactor :=
  ⟨"sms", "OKTA", "OKTA", "https://corp.okta.example/factors/sms1/verify"⟩

def envC2 : AuthEnv :=
  { domain := "corp.okta.example", totpKey := some "K", totpNow := "123456",
    promptCode := "999999", hasFido2 := false, hasDevice := false,
    prios := [("token:software:totp", 2), ("push", 1), ("sms", 0)] }

def r0C2 : OktaResponse :=
  ⟨"MFA_REQUIRED", "tokA", "", "", [smsFactor, pushFactor, totpFactor], ""⟩

def r1C2 : OktaResponse := ⟨"SUCCESS", "tokA", "", "sessTok", [], ""⟩

def envC5 : AuthEnv :=
  { domain := "corp.okta.example", totpKey := none, totpNow := "",
    promptCode := "000000", hasFido2 := false, hasDevice := false,
    prios := [("push", 1)] }

def c5r0 : OktaResponse := ⟨"MFA_REQUIRED", "tokA", "", "", [pushFactor], ""⟩

def c5r1 : OktaResponse := ⟨"MFA_CHALLENGE", "tokB", "WAITING", "", [], ""⟩

def c5r2 : OktaResponse := ⟨"SUCCESS", "tokB", "", "sessTok", [], ""⟩

def lockedResp : OktaResponse := ⟨"LOCKED_OUT", "tokL", "", "", [], ""⟩

def successResp : OktaResponse := ⟨"SUCCESS", "tokS", "", "sessTok", [], ""⟩

/-! ## Claim theorems -/

/-- C8: a first authentication response with status LOCKED_OUT makes
okta_auth fail immediately with the locked-out error, issuing no
factor verification request. -/
theorem c8_locked_out_immediate (env : AuthEnv) (r0 : OktaResponse)
    (rest : List OktaResponse) (h : r0.status = "LOCKED_OUT") :
    okta_auth env (r0 :: rest) = ([], Except.error OktaErr.lockedOut) := by
  simp [okta_auth, okta_finish, h]

theorem c8_witness :
    lockedResp.status = "LOCKED_OUT" ∧
    okta_auth envC5 [lockedResp] = ([], Except.error OktaErr.lockedOut) :=
  ⟨rfl, c8_locked_out_immediate envC5 lockedResp [] rfl⟩

/-- C10: a first authentication response with status SUCCESS makes
okta_auth return its sessionToken directly, issuing no factor
verification request (and hence reaching no user interaction). -/
theorem c10_success_direct (env : AuthEnv) (r0 : OktaResponse)
    (rest : List OktaResponse) (h : r0.status = "SUCCESS") :
    okta_auth env (r0 :: rest) = ([], Except.ok r0.sessionToken) := by
  simp [okta_auth, okta_finish, h]

theorem c10_witness :
    successResp.status = "SUCCESS" ∧
    okta_auth envC5 [successResp] = ([], Except.ok "sessTok") :=
  ⟨rfl, c10_success_direct envC5 successResp [] rfl⟩

/-- C5 (amended): every verification request issued by okta_auth
carries the stateToken of the most recent response, starting from the
initial authn response; the token is re-read from each response rather
than pinned to the first one. -/
theorem c5_token_from_most_recent_response (env : AuthEnv) (r0 : OktaResponse)
    (rest : List OktaResponse) :
    tokenThreaded r0.stateToken (okta_auth env (r0 :: rest)).1 := by
  simp only [okta_auth, okta_finish_fst]
  split
  · exact factor_loop_threaded env _ r0.stateToken _ rest
  · trivial

/-- C5 (counterexample): in a push run whose first poll response
carries a fresh stateToken, the second poll request carries that fresh
token, not the token issued by the first authentication response. -/
theorem c5_counterexample :
    ¬ (∀ q : OktaRequest,
        OktaEvent.req q ∈ (okta_auth envC5 [c5r0, c5r1, c5r2]).1 →
          q.stateToken = c5r0.stateToken) := by
  intro hall
  have htr : (okta_auth envC5 [c5r0, c5r1, c5r2]).1 =
      [.req ⟨pushFactor.verifyUrl, "tokA", none⟩, .resp c5r1,
       .req ⟨pushFactor.verifyUrl, "tokB", none⟩, .resp c5r2] := rfl
  have h2 := hall ⟨pushFactor.verifyUrl, "tokB", none⟩ (by rw [htr]; simp)
  have h3 : c5r0.stateToken = "tokA" := rfl
  rw [h3] at h2
  simp at h2

/-- C3: once a poll response is terminal (status not MFA_CHALLENGE, or
factor result not WAITING), the push loop issues no further poll: the
event trace ignores everything scripted after the terminal response,
and the number of polls issued is exactly one per continuing response
plus the final one. -/
theorem c3_push_poll_stops (url tok : String) (pre : List OktaResponse)
    (t : OktaResponse) (post : List OktaResponse)
    (hpre : ∀ r ∈ pre, pushCont r = true) (ht : pushCont t = false) :
    (push_verify url tok (pre ++ t :: post)).1 = (push_verify url tok (pre ++ [t])).1 ∧
    (push_verify url tok (pre ++ t :: post)).1.countP isReqEvent = pre.length + 1 := by
  induction pre generalizing tok with
  | nil =>
      simp only [List.nil_append, List.length_nil]
      by_cases hs : t.status = "MFA_CHALLENGE"
      · have hw : t.factorResult ≠ "WAITING" := by
          intro hw
          simp [pushCont, hs, hw] at ht
        simp only [push_verify, if_neg (not_not_intro hs), if_pos hw]
        exact ⟨by trivial, by trivial⟩
      · simp only [push_verify, if_pos hs]
        exact ⟨by trivial, by trivial⟩
  | cons r pre2 ih =>
      have hr := hpre r (by simp)
      simp only [pushCont, Bool.and_eq_true, beq_iff_eq] at hr
      obtain ⟨hs, hw⟩ := hr
      have ih2 := ih r.stateToken (fun x hx => hpre x (by simp [hx]))
      simp only [List.cons_append, push_verify, if_neg (not_not_intro hs),
        if_neg (not_not_intro hw)]
      refine ⟨?_, ?_⟩
      · simp only [List.cons.injEq, true_and]
        exact ih2.1
      · simp only [List.append_eq]
        rw [List.countP_cons, List.countP_cons, ih2.2]
        simp [isReqEvent, List.length_cons]

def junkResp : OktaResponse := ⟨"MFA_CHALLENGE", "tokZ", "WAITING", "", [], ""⟩

theorem c3_witness :
    (∀ r ∈ [c5r1], pushCont r = true) ∧ pushCont c5r2 = false ∧
    ((push_verify "u" "t" ([c5r1] ++ c5r2 :: [junkResp])).1 =
       (push_verify "u" "t" ([c5r1] ++ [c5r2])).1 ∧
     (push_verify "u" "t" ([c5r1] ++ c5r2 :: [junkResp])).1.countP isReqEvent =
       [c5r1].length + 1) :=
  ⟨by decide, by decide,
   c3_push_poll_stops "u" "t" [c5r1] c5r2 [junkResp] (by decide) (by decide)⟩

theorem sortedFactors_stable (prios : List (String × Int)) (k : Int) :
    ∀ fs : List MfaFactor,
      (sortedFactors prios fs).filter (fun f => factor_priority prios f = k) =
        fs.filter (fun f => factor_priority prios f = k)
  | [] => rfl
  | f :: rest => by
      have ih := sortedFactors_stable prios k rest
      have hins : sortedFactors prios (f :: rest) =
          (sortedFactors prios rest).orderedInsert
            (fun a b => factor_priority prios b ≤ factor_priority prios a) f := rfl
      rw [hins, filter_orderedInsert (factor_priority prios) k f (sortedFactors prios rest)]
      by_cases hk : factor_priority prios f = k
      · rw [if_pos hk, ih, List.filter_cons, if_pos (by simp [hk])]
      · rw [if_neg hk, ih, List.filter_cons, if_neg (by simp [hk])]

/-- C2: the negotiator considers factors in the order produced by
sorted(key=priority, reverse=True), which is the stable descending
sort: the output is pairwise descending in priority, is a permutation
of the offered factors, and preserves the original order inside every
priority class; with priorities totp 2, push 1, sms 0 and all three
factors offered, the totp factor is attempted first (its verification
request is the first request okta_auth issues). -/
theorem c2_stable_descending_selection :
    (∀ (prios : List (String × Int)) (fs : List MfaFactor),
      List.Sorted (fun a b => factor_priority prios b ≤ factor_priority prios a)
        (sortedFactors prios fs) ∧
      List.Perm (sortedFactors prios fs) fs ∧
      ∀ k : Int,
        (sortedFactors prios fs).filter (fun f => factor_priority prios f = k) =
          fs.filter (fun f => factor_priority prios f = k)) ∧
    sortedFactors envC2.prios [smsFactor, pushFactor, totpFactor] =
      [totpFactor, pushFactor, smsFactor] ∧
    (okta_auth envC2 [r0C2, r1C2]).1.head? =
      some (OktaEvent.req ⟨totpFactor.verifyUrl, "tokA", some "123456"⟩) := by
  refine ⟨fun prios fs => ⟨?_, ?_, fun k => sortedFactors_stable prios k fs⟩, ?_, ?_⟩
  · haveI : IsTotal MfaFactor (fun a b => factor_priority prios b ≤ factor_priority prios a) :=
      ⟨fun a b => le_total _ _⟩
    haveI : IsTrans MfaFactor (fun a b => factor_priority prios b ≤ factor_priority prios a) :=
      ⟨fun a b c h1 h2 => le_trans h2 h1⟩
    exact List.sorted_insertionSort _ fs
  · exact List.perm_insertionSort _ fs
  · rfl
  · rfl

/-- C7: the priority function maps token-software-totp to 0 without a
configured TOTP secret and 2 with one, push to 1, every other type to
0, and a user override for a type replaces that default. -/
theorem c7_priority_function (tk : Option String) (ovr : List (String × Int)) (ft : String) :
    (dict_lookup ovr ft = none →
      dict_get (main_factor_priorities tk ovr) ft 0 =
        if ft = "token:software:totp" then (if tk = none then 0 else 2)
        else if ft = "push" then 1 else 0) ∧
    (∀ v : Int, dict_lookup ovr ft = some v →
      dict_get (main_factor_priorities tk ovr) ft 0 = v) := by
  constructor
  · intro hnone
    unfold dict_get main_factor_priorities
    rw [dict_lookup_append, hnone]
    by_cases h1 : ft = "token:software:totp"
    · subst h1
      simp [dict_lookup]
    · by_cases h2 : ft = "push"
      · subst h2
        simp [dict_lookup]
      · have h1b : ¬ ("token:software:totp" = ft) := fun hh => h1 hh.symm
        have h2b : ¬ ("push" = ft) := fun hh => h2 hh.symm
        simp [dict_lookup, h1, h2, h1b, h2b]
  · intro v hv
    unfold dict_get main_factor_priorities
    rw [dict_lookup_append, hv]
    rfl

theorem c7_witness :
    dict_get (main_factor_priorities (some "K") [("push", 5)]) "push" 0 = 5 ∧
    dict_get (main_factor_priorities none []) "token:software:totp" 0 = 0 ∧
    dict_get (main_factor_priorities (some "K") []) "token:software:totp" 0 = 2 ∧
    dict_get (main_factor_priorities none []) "sms" 0 = 0 := by
  refine ⟨(c7_priority_function (some "K") [("push", 5)] "push").2 5 rfl, ?_, ?_, ?_⟩
  · have hd := (c7_priority_function none [] "token:software:totp").1 rfl
    simpa using hd
  · have hd := (c7_priority_function (some "K") [] "token:software:totp").1 rfl
    simpa using hd
  · have hd := (c7_priority_function none [] "sms").1 rfl
    simpa using hd

/-- C9: when the form extracted from the prelogin response lacks the
SAMLRequest field, the flow fails with the assert violation and the
post-prelogin request trace is empty: no further network request is
issued. -/
theorem c9_missing_samlrequest (env : SamlEnv)
    (h : (env.preloginFields.map Prod.fst).contains "SAMLRequest" = false) :
    saml_flow env = ([], Except.error OktaErr.assertFail) := by
  unfold saml_flow prelogin_extract
  rw [h]
  rfl

def envS : SamlEnv :=
  { preloginAction := "https://corp.okta.example/app/sso/saml",
    preloginFields := [("RelayState", "x")],
    authEnv := envC5, authScript := [],
    redirectAction := "https://gw.example/SAML20/SP/ACS",
    redirectFields := [("SAMLResponse", "resp")],
    samlUsername := "user@example.com", preloginCookie := "cookie" }

theorem c9_witness :
    (envS.preloginFields.map Prod.fst).contains "SAMLRequest" = false ∧
    saml_flow envS = ([], Except.error OktaErr.assertFail) :=
  ⟨rfl, c9_missing_samlrequest envS rfl⟩

/-- C6: for each webauthn assertion field, the transport encoding
produced by the b64 helper equals the standard padded base64 encoding
of the URL-safe unpadded decoding of the canonical field encoding, and
decoding the transport value with standard base64 recovers the
original authenticator bytes. -/
theorem c6_transport_reencoding (bs : List Nat) (h : ∀ b ∈ bs, b < 256) :
    okta_b64 bs = b64encode bs ∧
    b64decode (okta_b64 bs) = some bs ∧
    websafe_decode (websafe_encode bs) = some bs := by
  have hws := websafe_roundtrip bs h
  have heq : okta_b64 bs = b64encode bs := by
    unfold okta_b64
    rw [hws]
    rfl
  exact ⟨heq, heq ▸ b64_roundtrip bs h, hws⟩

theorem c6_witness :
    (∀ b ∈ [0, 255, 77, 1], b < 256) ∧
    (okta_b64 [0, 255, 77, 1] = b64encode [0, 255, 77, 1] ∧
     b64decode (okta_b64 [0, 255, 77, 1]) = some [0, 255, 77, 1] ∧
     websafe_decode (websafe_encode [0, 255, 77, 1]) = some [0, 255, 77, 1]) :=
  ⟨by decide, c6_transport_reencoding [0, 255, 77, 1] (by decide)⟩

/-- Boolean summary of a completed supervisor run: exactly one signal
reached the child, the handler and mask are back to their originals,
nothing is pending, and the child was spawned with the original mask. -/
def supOk (m0 : Bool) (s : SupState) : Bool :=
  s.childSigs == 1 && s.handler == SigHandler.orig && s.mask == m0 &&
    s.pending == false && s.childMask == some m0

theorem runSup_early_check :
    ∀ (m0 : Bool) (i : Nat), i < 7 → (runSup m0 i).all (supOk m0) = true := by
  intro m0
  cases m0 <;> decide

theorem supOk_spec (m0 : Bool) (s : SupState) (h : supOk m0 s = true) :
    s.childSigs = 1 ∧ s.handler = SigHandler.orig ∧ s.mask = m0 ∧ s.pending = false ∧
      s.childMask = some m0 := by
  simp only [supOk, Bool.and_eq_true, beq_iff_eq] at h
  exact ⟨h.1.1.1.1, h.1.1.1.2, h.1.1.2, h.1.2, h.2⟩

/-- C1: however the single termination signal is placed after the
signal is first blocked, every completed supervisor run delivers
exactly one termination signal to the child and ends with the original
handler and the original mask restored; and every placement from right
after blocking up to the wait on the child does complete when the
original mask leaves the signal unblocked. -/
theorem c1_sigterm_forwarded_exactly_once :
    (∀ (m0 : Bool) (i : Nat) (s : SupState), runSup m0 i = some s →
      s.childSigs = 1 ∧ s.handler = SigHandler.orig ∧ s.mask = m0 ∧ s.pending = false) ∧
    (∀ i : Nat, i < 7 → 1 ≤ i → (runSup false i).isSome = true) := by
  constructor
  · intro m0 i s h
    by_cases hi : i < 7
    · have hc := runSup_early_check m0 i hi
      rw [h] at hc
      have hspec := supOk_spec m0 s hc
      exact ⟨hspec.1, hspec.2.1, hspec.2.2.1, hspec.2.2.2.1⟩
    · rw [runSup_late m0 i (by omega)] at h
      cases h
  · decide

theorem c1_witness :
    ((2 : Nat) < 7 ∧ (1 : Nat) ≤ 2 ∧ (runSup false 2).isSome = true) ∧
    (match runSup false 2 with
     | some s => s.childSigs = 1 ∧ s.handler = SigHandler.orig ∧ s.mask = false ∧
         s.pending = false
     | none => False) := by
  constructor
  · exact ⟨by decide, by decide,
      c1_sigterm_forwarded_exactly_once.2 2 (by decide) (by decide)⟩
  · cases hr : runSup false 2 with
    | none =>
        have hs : (runSup false 2).isSome = true := by decide
        rw [hr] at hs
        exact absurd hs (by decide)
    | some s => exact c1_sigterm_forwarded_exactly_once.1 false 2 s hr

/-- C4 (counterexample): the claim that the child inherits the blocked
mask fails: in a run whose original mask leaves the termination signal
unblocked, the spawned child gets that unblocked mask (the preexec
hook resets it), not the blocked one. -/
theorem c4_counterexample :
    ¬ (∀ (m0 : Bool) (i : Nat) (s : SupState), runSup m0 i = some s →
        s.childMask = some true) := by
  intro hall
  cases hr : runSup false 2 with
  | none =>
      have hs : (runSup false 2).isSome = true := by decide
      rw [hr] at hs
      exact absurd hs (by decide)
  | some s =>
      have h1 := hall false 2 s hr
      have hc := runSup_early_check false 2 (by decide)
      rw [hr] at hc
      have h2 := (supOk_spec false s hc).2.2.2.2
      rw [h1] at h2
      simp at h2

/-- C4 (amended): the child is spawned with the mask saved before
blocking (the preexec hook restores the original mask in the child),
so the termination signal is blocked in the child only when it was
blocked before the supervisor started; the blocked mask covers the
supervisor alone. -/
theorem c4_child_mask_original (m0 : Bool) (i : Nat) (s : SupState)
    (h : runSup m0 i = some s) : s.childMask = some m0 := by
  by_cases hi : i < 7
  · have hc := runSup_early_check m0 i hi
    rw [h] at hc
    exact (supOk_spec m0 s hc).2.2.2.2
  · rw [runSup_late m0 i (by omega)] at h
    cases h

theorem c4_witness :
    (runSup false 2).isSome = true ∧
    (match runSup false 2 with
     | some s => s.childMask = some false
     | none => False) := by
  refine ⟨by decide, ?_⟩
  cases hr : runSup false 2 with
  | none =>
      have hs : (runSup false 2).isSome = true := by decide
      rw [hr] at hs
      exact absurd hs (by decide)
  | some s => exact c4_child_mask_original false 2 s hr
